import Mathlib

/-!
Shallow embedding of the track-metadata subsystem of the spotify-mcp-server
repository: the `get_track` and `get_tracks` tools of `src/read.ts`, their
zod parameter schemas, and the response rendering they perform.  JavaScript
runtime values that matter to the handlers (null vs undefined slots, thrown
values, possibly-undefined fields) are modelled explicitly.
-/

/-- An artist record as in `src/types.ts` (`SpotifyArtist`): `id` and `name`. -/
structure SpotifyArtist where
  id : String
  name : String
deriving DecidableEq

/-- An album record as in `src/types.ts` (`SpotifyAlbum`). -/
structure SpotifyAlbum where
  id : String
  name : String
  artists : List SpotifyArtist
deriving DecidableEq

/-- A track-metadata record as in `src/types.ts` (`SpotifyTrackMetadata`).
`popularity` is `Option Nat` because the handlers guard against a runtime
`undefined` (`track.popularity ?? 0`); `preview_url` is `string | null` and
`external_ids?.isrc` is optional, both `Option String`. -/
structure SpotifyTrackMetadata where
  id : String
  name : String
  artists : List SpotifyArtist
  album : SpotifyAlbum
  duration_ms : Nat
  explicit : Bool
  popularity : Option Nat
  preview_url : Option String
  external_ids_isrc : Option String
  external_urls_spotify : String
deriving DecidableEq

/-- A thrown JavaScript value as consumed by the catch blocks:
either an `Error` instance (carrying `.message`) or any other value
(rendered through `String(error)`). -/
inductive JsError where
  | errorObj (message : String)
  | nonError (str : String)
deriving DecidableEq

/-- `error instanceof Error ? error.message : String(error)` from the catch
blocks of `getTrack` and `getTracks` in `src/read.ts`. -/
def errorText : JsError → String
  | JsError.errorObj m => m
  | JsError.nonError s => s

/-- One slot of the array returned by the batch remote call
`spotifyApi.tracks.get(trackIds)`: a record, a literal `null`, or a runtime
`undefined`.  The handler distinguishes them: `!track` is true for both
`nullSlot` and `undefSlot`, while `t !== null` is false only for `nullSlot`. -/
inductive TrackSlot where
  | found (t : SpotifyTrackMetadata)
  | nullSlot
  | undefSlot
deriving DecidableEq

/-- `!track` — JavaScript falsiness of a slot (records are always truthy). -/
def TrackSlot.isFalsy : TrackSlot → Bool
  | TrackSlot.found _ => false
  | _ => true

/-- `t !== null` — strict non-null test used for `validCount`. -/
def TrackSlot.neNull : TrackSlot → Bool
  | TrackSlot.nullSlot => false
  | _ => true

/-- Behaviour of the awaited remote call in `getTrack`:
it either resolves (to a record, or to a falsy null/undefined) or throws. -/
inductive SingleRemote where
  | returns (t : Option SpotifyTrackMetadata)
  | throws (e : JsError)
deriving DecidableEq

/-- Behaviour of the awaited remote call in `getTracks`: it either resolves
(to an array of slots, or to a falsy null/undefined modelled as `none`)
or throws. -/
inductive BatchRemote where
  | returns (ts : Option (List TrackSlot))
  | throws (e : JsError)
deriving DecidableEq

/-- One element of a tool response's `content` array: `{ type: 'text', text }`. -/
structure ContentItem where
  type : String
  text : String
deriving DecidableEq

/-- A tool response: `{ content: [...] }` as in `src/types.ts` (`tool`). -/
structure ToolResponse where
  content : List ContentItem
deriving DecidableEq

/-- `{ content: [{ type: 'text', text: s }] }` — the response shape every
branch of both handlers produces. -/
def textResponse (s : String) : ToolResponse :=
  ToolResponse.mk [ContentItem.mk "text" s]

/-- The text of the first content item of a response (every handler branch
produces exactly one). -/
def firstText (r : ToolResponse) : String :=
  match r.content with
  | c :: _ => c.text
  | [] => ""

/-- Modelled from the spec: `formatDuration(ms)` from `src/utils.ts`, which is
not part of the corpus.  Spec §4.4: "durationMs → total whole seconds →
minutes:seconds, seconds zero-padded to width 2, minutes not padded
(e.g., 225000ms → 3:45)". -/
def formatDuration (ms : Nat) : String :=
  let totalSeconds := ms / 1000
  let minutes := totalSeconds / 60
  let seconds := totalSeconds % 60
  toString minutes ++ ":" ++ (if seconds < 10 then "0" ++ toString seconds else toString seconds)

/-- JavaScript `Array.prototype.join(sep)`: elements interleaved with the
separator, empty list giving the empty string. -/
def jsJoin (sep : String) : List String → String
  | [] => ""
  | [a] => a
  | a :: b :: rest => a ++ sep ++ jsJoin sep (b :: rest)

/-- JavaScript `v || d` for an optional string (`null`, `undefined` and the
empty string are falsy), as in `track.preview_url || 'Not available'` and
`track.external_ids?.isrc || 'N/A'`. -/
def jsStrOr (v : Option String) (d : String) : String :=
  match v with
  | none => d
  | some s => if s = "" then d else s

/-- JavaScript template interpolation of a possibly-undefined number, as in
the batch renderer's `${track.popularity}`. -/
def jsNumStr : Option Nat → String
  | some n => toString n
  | none => "undefined"

/-- JavaScript `trackIds[index]` interpolated into a template: out-of-range
access yields `undefined`, rendered as the string "undefined". -/
def jsIndex (ids : List String) (i : Nat) : String :=
  match ids.get? i with
  | some s => s
  | none => "undefined"

/-- The `get_track` handler of `src/read.ts` (lines 759–825), with the awaited
remote call's behaviour passed in explicitly.  The catch block fires exactly
when the remote call throws; a falsy result takes the `!track` branch;
otherwise the found rendering is produced, line by line as in the source. -/
def getTrackHandler (trackId : String) (remote : SingleRemote) : ToolResponse :=
  match remote with
  | SingleRemote.throws e =>
      textResponse ("Error retrieving track metadata: " ++ errorText e)
  | SingleRemote.returns none =>
      textResponse ("Track with ID \"" ++ trackId ++ "\" not found")
  | SingleRemote.returns (some track) =>
      let artists := jsJoin ", " (track.artists.map (fun a => a.name))
      let duration := formatDuration track.duration_ms
      let explicit := if track.explicit then "Yes" else "No"
      let preview := jsStrOr track.preview_url "Not available"
      let isrc := jsStrOr track.external_ids_isrc "N/A"
      let popularity := track.popularity.getD 0
      textResponse
        ("# Track Metadata\n\n" ++
         ("**Track**: \"" ++ track.name ++ "\"\n") ++
         ("**Artists**: " ++ artists ++ "\n") ++
         ("**Album**: " ++ track.album.name ++ "\n") ++
         ("**Duration**: " ++ duration ++ "\n") ++
         ("**Popularity**: " ++ toString popularity ++ "/100\n") ++
         ("**Explicit**: " ++ explicit ++ "\n") ++
         ("**ISRC**: " ++ isrc ++ "\n") ++
         ("**Preview**: " ++ preview ++ "\n") ++
         ("**Spotify URL**: " ++ track.external_urls_spotify ++ "\n") ++
         ("**ID**: " ++ track.id))

/-- The per-slot formatter inside `getTracks` (`tracks.map((track, index) => ...)`,
lines 870–888 of `src/read.ts`): a falsy slot renders the invalid-ID line,
a record renders the numbered block. -/
def renderTrackBlock (ids : List String) (index : Nat) (slot : TrackSlot) : String :=
  match slot with
  | TrackSlot.found track =>
      let artists := jsJoin ", " (track.artists.map (fun a => a.name))
      let duration := formatDuration track.duration_ms
      "\n## " ++
        (toString (index + 1) ++ ". \"" ++ track.name ++ "\"\n" ++
         ("**Artists**: " ++ artists ++ "\n") ++
         ("**Album**: " ++ track.album.name ++ "\n") ++
         ("**Duration**: " ++ duration ++ "\n") ++
         ("**Popularity**: " ++ jsNumStr track.popularity ++ "/100\n") ++
         ("**ID**: " ++ track.id))
  | _ =>
      "\n[Invalid ID]: " ++ (jsIndex ids index ++ " - Track not found")

/-- `validCount = tracks.filter((t) => t !== null).length` (line 890). -/
def validCount (tracks : List TrackSlot) : Nat :=
  (tracks.filter (fun t => t.neNull)).length

/-- The list of formatted per-slot blocks, in input order
(`tracks.map((track, index) => ...)` before the `.join('\n')`). -/
def renderedBlocks (ids : List String) (tracks : List TrackSlot) : List String :=
  tracks.enum.map (fun p => renderTrackBlock ids p.1 p.2)

/-- The `get_tracks` handler of `src/read.ts` (lines 827–913), with the awaited
remote call's behaviour passed in explicitly.  Empty input short-circuits
before the remote call; a falsy or empty result yields the fixed message;
otherwise blocks are joined with `'\n'` under the validCount header. -/
def getTracksHandler (trackIds : List String) (remote : BatchRemote) : ToolResponse :=
  if trackIds.length = 0 then
    textResponse "No track IDs provided"
  else
    match remote with
    | BatchRemote.throws e =>
        textResponse ("Error retrieving track metadata: " ++ errorText e)
    | BatchRemote.returns none =>
        textResponse "No tracks found for the provided IDs"
    | BatchRemote.returns (some tracks) =>
        if tracks.length = 0 then
          textResponse "No tracks found for the provided IDs"
        else
          let formattedTracks := jsJoin "\n" (renderedBlocks trackIds tracks)
          textResponse
            ("# Track Metadata (" ++
             (toString (validCount tracks) ++ " of " ++ toString trackIds.length ++ " tracks)\n") ++
             formattedTracks)

/-- A structured zod validation issue.  `tooBig` embeds zod's `too_big` issue
kind, produced by the `.max(50)` bound on `trackIds`. -/
inductive SchemaIssue where
  | tooBig (maximum : Nat)
deriving DecidableEq

/-- Outcome of invoking the `get_tracks` tool through its parameter schema:
either a structured schema rejection (the handler never runs) or the
handler's response. -/
inductive ToolOutcome where
  | schemaRejected (i : SchemaIssue)
  | handled (r : ToolResponse)
deriving DecidableEq

/-- The parameter schema of `get_tracks` (lines 833–838 of `src/read.ts`):
`z.array(z.string()).max(50)` — zod rejects arrays longer than 50 elements
with a `too_big` issue before the handler is invoked. -/
def trackIdsSchemaCheck (ids : List String) : Option SchemaIssue :=
  if ids.length > 50 then some (SchemaIssue.tooBig 50) else none

/-- The `get_tracks` tool as invoked by the MCP server: schema validation
first, then the handler.  On schema rejection the handler (and hence the
remote call) never runs. -/
def runGetTracks (ids : List String) (remote : BatchRemote) : ToolOutcome :=
  match trackIdsSchemaCheck ids with
  | some i => ToolOutcome.schemaRejected i
  | none => ToolOutcome.handled (getTracksHandler ids remote)

example : formatDuration 225000 = "3:45" := by decide

example : firstText (getTrackHandler "x" (SingleRemote.returns none)) = "Track with ID \"x\" not found" := by decide

/-- Claim-side: the ten labeled lines of the single-track found rendering, in
the fixed order the spec states, with the spec's fallback renderings. -/
def specFoundLines (t : SpotifyTrackMetadata) : List String :=
  ["**Track**: \"" ++ t.name ++ "\"",
   "**Artists**: " ++ jsJoin ", " (t.artists.map (fun a => a.name)),
   "**Album**: " ++ t.album.name,
   "**Duration**: " ++ formatDuration t.duration_ms,
   "**Popularity**: " ++ toString (t.popularity.getD 0) ++ "/100",
   "**Explicit**: " ++ (if t.explicit then "Yes" else "No"),
   "**ISRC**: " ++ jsStrOr t.external_ids_isrc "N/A",
   "**Preview**: " ++ jsStrOr t.preview_url "Not available",
   "**Spotify URL**: " ++ t.external_urls_spotify,
   "**ID**: " ++ t.id]

/-- Claim-side: the whole single-track found rendering — the header, a blank
line, then the ten labeled fields each on its own line. -/
def specFoundText (t : SpotifyTrackMetadata) : String :=
  "# Track Metadata\n\n" ++ jsJoin "\n" (specFoundLines t)

/-- Claim-side: the numbered found block of the batch rendering for slot `i`
(0-based): the `## i+1.` marker and title, then the labeled field lines and
the record's id, each on its own line. -/
def claimFoundBlock (i : Nat) (t : SpotifyTrackMetadata) : String :=
  "\n## " ++
    (toString (i + 1) ++ ". \"" ++ t.name ++ "\"\n" ++
     jsJoin "\n"
       ["**Artists**: " ++ jsJoin ", " (t.artists.map (fun a => a.name)),
        "**Album**: " ++ t.album.name,
        "**Duration**: " ++ formatDuration t.duration_ms,
        "**Popularity**: " ++ jsNumStr t.popularity ++ "/100",
        "**ID**: " ++ t.id])

/-- Claim-side: the absent-slot line for slot `i`, carrying the original
input identifier. -/
def claimInvalidLine (ids : List String) (i : Nat) : String :=
  "\n[Invalid ID]: " ++ (ids.getD i "" ++ " - Track not found")

/-- Claim-side: number of slots of the result array that are not null. -/
def claimValidCount (slots : List TrackSlot) : Nat :=
  (slots.filter (fun s => s != TrackSlot.nullSlot)).length

/-- Claim-side: the batch header `# Track Metadata (<validCount> of <total> tracks)`. -/
def claimHeader (ids : List String) (slots : List TrackSlot) : String :=
  "# Track Metadata (" ++ toString (claimValidCount slots) ++ " of " ++
    toString ids.length ++ " tracks)"

/-- `p` occurs as a contiguous substring of `s`. -/
def Substr (p s : String) : Prop :=
  p.data <:+: s.data

/-- The per-slot blocks built with an explicit running index — the recursion
underlying `tracks.map((track, index) => ...)`. -/
def renderBlocksAux (ids : List String) (i : Nat) : List TrackSlot → List String
  | [] => []
  | s :: rest => renderTrackBlock ids i s :: renderBlocksAux ids (i + 1) rest

theorem enumFrom_map_renderBlocks (ids : List String) :
    ∀ (ts : List TrackSlot) (i : Nat),
      (List.enumFrom i ts).map (fun p => renderTrackBlock ids p.1 p.2) =
        renderBlocksAux ids i ts := by
  intro ts
  induction ts with
  | nil => intro i; rfl
  | cons s rest ih =>
      intro i
      simp only [List.enumFrom, List.map, renderBlocksAux]
      exact congrArg _ (ih (i + 1))

theorem renderedBlocks_eq_aux (ids : List String) (ts : List TrackSlot) :
    renderedBlocks ids ts = renderBlocksAux ids 0 ts := by
  unfold renderedBlocks List.enum
  exact enumFrom_map_renderBlocks ids ts 0

theorem renderBlocksAux_length (ids : List String) :
    ∀ (ts : List TrackSlot) (i : Nat), (renderBlocksAux ids i ts).length = ts.length := by
  intro ts
  induction ts with
  | nil => intro i; rfl
  | cons s rest ih => intro i; simp [renderBlocksAux, ih]

theorem renderBlocksAux_getD (ids : List String) :
    ∀ (ts : List TrackSlot) (i k : Nat), k < ts.length →
      (renderBlocksAux ids i ts).getD k "" =
        renderTrackBlock ids (i + k) (ts.getD k TrackSlot.nullSlot) := by
  intro ts
  induction ts with
  | nil => intro i k hk; simp at hk
  | cons s rest ih =>
      intro i k hk
      cases k with
      | zero => simp [renderBlocksAux]
      | succ k =>
          simp only [renderBlocksAux, List.getD_cons_succ]
          rw [ih (i + 1) k (by simpa using hk)]
          ring_nf

theorem charsSkip (a : List Char) {p m : List Char} (h : p <:+: m) : p <:+: a ++ m :=
  h.trans ( List.suffix_append a m).isInfix

theorem charsStop (b : List Char) {p m : List Char} (h : p <:+: m) : p <:+: m ++ b :=
  h.trans ( List.prefix_append m b).isInfix

theorem charsOfPref {p m : List Char} (h : p <+: m) : p <:+: m :=
  h.isInfix

theorem prefStop (b : List Char) {p a : List Char} (h : p <+: a) : p <+: a ++ b :=
  h.trans ( List.prefix_append a b)

theorem prefCongr (a : List Char) {p q : List Char} (h : p <+: q) : a ++ p <+: a ++ q := by
  obtain ⟨t, rfl⟩ := h
  exact ⟨t, by simp⟩

theorem substrAppendLeft {p a : String} (b : String) (h : Substr p a) : Substr p (a ++ b) := by
  unfold Substr at *
  rw [String.data_append]
  exact charsStop b.data h

theorem substrAppendRight (a : String) {p b : String} (h : Substr p b) : Substr p (a ++ b) := by
  unfold Substr at *
  rw [String.data_append]
  exact charsSkip a.data h

theorem substrRefl (p : String) : Substr p p :=
  List.infix_refl p.data

/-- A string differs from another when they disagree at some character
position of their underlying character lists. -/
theorem stringNeOfChar {a b : String} (i : Nat)
    (h : a.data[i]? ≠ b.data[i]?) : a ≠ b := by
  intro hab
  exact h (by rw [hab])

theorem getAppendLeft {l r : List Char} {i : Nat} (h : i < l.length) :
    (l ++ r)[i]? = l[i]? :=
  List.getElem?_append_left h

theorem notPrefixOfCharNe {p m : List Char} (i : Nat) (hi : i < p.length)
    (hne : p[i]? ≠ m[i]?) : ¬ (p <+: m) := by
  intro h
  obtain ⟨t, rfl⟩ := h
  exact hne (by rw [getAppendLeft hi])

/-- C3: for every input and every collaborator behaviour (record, null or
empty result, or throw) both handlers return a well-formed single-text
response and never raise; whenever the remote call throws, the returned text
is exactly the prefix `Error retrieving track metadata: ` followed by the
thrown error's message — for the single lookup and the batch alike. -/
theorem C3_no_uncaught_fault (trackId : String) (ids : List String)
    (r1 : SingleRemote) (r2 : BatchRemote) (hle : ids.length ≤ 50) :
    (∃ s, (getTrackHandler trackId r1).content = [ContentItem.mk "text" s]) ∧
    (∃ s, (getTracksHandler ids r2).content = [ContentItem.mk "text" s]) ∧
    (∀ e, (getTrackHandler trackId (SingleRemote.throws e)).content =
      [ContentItem.mk "text" ("Error retrieving track metadata: " ++ errorText e)]) ∧
    (∀ e, ids ≠ [] → (getTracksHandler ids (BatchRemote.throws e)).content =
      [ContentItem.mk "text" ("Error retrieving track metadata: " ++ errorText e)]) := by
  refine ⟨?_, ?_, ?_, ?_⟩
  · cases r1 with
    | throws e => exact ⟨_, rfl⟩
    | returns o => cases o with
      | none => exact ⟨_, rfl⟩
      | some t => exact ⟨_, rfl⟩
  · unfold getTracksHandler
    split
    · exact ⟨_, rfl⟩
    · cases r2 with
      | throws e => exact ⟨_, rfl⟩
      | returns o =>
          cases o with
          | none => exact ⟨_, rfl⟩
          | some tracks =>
              dsimp only
              split
              · exact ⟨_, rfl⟩
              · exact ⟨_, rfl⟩
  · intro e; rfl
  · intro e hne
    unfold getTracksHandler
    rw [if_neg (by simpa [List.length_eq_zero] using hne)]
    rfl

theorem C3_no_uncaught_fault_witness :
    ((["b"] : List String).length ≤ 50) ∧
    ((∃ s, (getTrackHandler "a" (SingleRemote.returns none)).content = [ContentItem.mk "text" s]) ∧
     (∃ s, (getTracksHandler ["b"] (BatchRemote.returns none)).content = [ContentItem.mk "text" s]) ∧
     (∀ e, (getTrackHandler "a" (SingleRemote.throws e)).content =
       [ContentItem.mk "text" ("Error retrieving track metadata: " ++ errorText e)]) ∧
     (∀ e, (["b"] : List String) ≠ [] → (getTracksHandler ["b"] (BatchRemote.throws e)).content =
       [ContentItem.mk "text" ("Error retrieving track metadata: " ++ errorText e)])) :=
  ⟨by decide,
   C3_no_uncaught_fault "a" ["b"] (SingleRemote.returns none) (BatchRemote.returns none) (by decide)⟩

/-- C4: the `get_tracks` parameter schema rejects every input array longer
than 50 with a structured too-big validation failure before the handler (and
hence any remote call) runs — the outcome is independent of the remote's
behaviour — while an array of exactly 50 IDs passes schema validation and
reaches the handler. -/
theorem C4_batch_size_limit (ids1 ids2 : List String)
    (h1 : ids1.length > 50) (h2 : ids2.length = 50) :
    (∀ r : BatchRemote, runGetTracks ids1 r = ToolOutcome.schemaRejected (SchemaIssue.tooBig 50)) ∧
    trackIdsSchemaCheck ids2 = none ∧
    (∀ r : BatchRemote, runGetTracks ids2 r = ToolOutcome.handled (getTracksHandler ids2 r)) := by
  refine ⟨fun r => ?_, ?_, fun r => ?_⟩
  · unfold runGetTracks trackIdsSchemaCheck
    rw [if_pos h1]
  · unfold trackIdsSchemaCheck
    rw [if_neg (by omega)]
  · unfold runGetTracks trackIdsSchemaCheck
    rw [if_neg (by omega)]

theorem C4_batch_size_limit_witness :
    (List.replicate 51 "x").length > 50 ∧ (List.replicate 50 "x").length = 50 ∧
    ((∀ r : BatchRemote, runGetTracks (List.replicate 51 "x") r =
        ToolOutcome.schemaRejected (SchemaIssue.tooBig 50)) ∧
     trackIdsSchemaCheck (List.replicate 50 "x") = none ∧
     (∀ r : BatchRemote, runGetTracks (List.replicate 50 "x") r =
        ToolOutcome.handled (getTracksHandler (List.replicate 50 "x") r))) :=
  ⟨by simp, by simp, C4_batch_size_limit _ _ (by simp) (by simp)⟩

/-- C6: for every input id, when the remote single-item resolution returns no
record, `get_track` answers with exactly `Track with ID "<id>" not found`,
interpolating the original identifier, and this text is ordinary output — it
does not start with the error prefix. -/
theorem C6_not_found_text (id : String) :
    (getTrackHandler id (SingleRemote.returns none)).content =
      [ContentItem.mk "text" ("Track with ID \"" ++ id ++ "\" not found")] ∧
    ¬ ("Error retrieving track metadata: ".data <+:
        ("Track with ID \"" ++ id ++ "\" not found").data) := by
  constructor
  · rfl
  · apply notPrefixOfCharNe 0 (by decide)
    have hd : ("Track with ID \"" ++ id ++ "\" not found").data =
        "Track with ID \"".data ++ (id.data ++ "\" not found".data) := by
      simp [String.data_append]
    rw [hd, getAppendLeft (by decide)]
    decide

/-- C8: the empty batch input short-circuits: the response is the fixed text
`No track IDs provided` regardless of the remote collaborator's behaviour
(so no remote call is consulted), and that text contains the substring
"no track" case-insensitively. -/
theorem C8_empty_batch_short_circuit :
    (∀ r : BatchRemote, getTracksHandler [] r = textResponse "No track IDs provided") ∧
    "no track".data <:+:
      ((firstText (getTracksHandler [] (BatchRemote.returns none))).data.map Char.toLower) := by
  constructor
  · intro r; rfl
  · decide

/-- C5: for every identifier that resolves to a record, the `get_track` found
rendering is the header plus exactly the ten labeled fields in the fixed
order, each on its own line, with Popularity as `<n>/100`, Explicit as Yes/No,
ISRC falling back to "N/A" and Preview falling back to "Not available". -/
theorem C5_found_rendering (trackId : String) (t : SpotifyTrackMetadata) :
    (getTrackHandler trackId (SingleRemote.returns (some t))).content =
      [ContentItem.mk "text" (specFoundText t)] := by
  simp only [getTrackHandler, textResponse, List.cons.injEq, ContentItem.mk.injEq,
    and_true, true_and]
  refine String.ext ?_
  simp [specFoundText, specFoundLines, jsJoin, String.data_append,
    List.append_assoc, List.cons_append, List.nil_append]

theorem prefThrough {p A B C rest : List Char} (h : p <+: A ++ B ++ C) :
    p <+: A ++ (B ++ (C ++ rest)) := by
  have h2 := prefStop rest h
  simpa [List.append_assoc] using h2

theorem firstText_textResponse (s : String) : firstText (textResponse s) = s := rfl

/-- C10: when a resolved record's popularity field is absent, `get_track`
renders the line `**Popularity**: 0/100` (the single-item renderer defaults a
missing popularity to 0 via `?? 0`), whereas the batch renderer of
`get_tracks` interpolates the missing popularity with no default, yielding
`**Popularity**: undefined/100` in that slot's block. -/
theorem C10_popularity_default_divergence (trackId : String) (ids : List String)
    (i : Nat) (t : SpotifyTrackMetadata) (h : t.popularity = none) :
    Substr "**Popularity**: 0/100"
      (firstText (getTrackHandler trackId (SingleRemote.returns (some t)))) ∧
    Substr "**Popularity**: undefined/100"
      (renderTrackBlock ids i (TrackSlot.found t)) := by
  have h0 : toString ((none : Option Nat).getD 0) = "0" := rfl
  constructor
  · unfold Substr
    simp only [getTrackHandler, firstText_textResponse, h, h0]
    simp only [String.data_append, List.append_assoc]
    iterate 13 apply charsSkip
    apply charsOfPref
    apply prefThrough
    decide
  · unfold Substr
    simp only [renderTrackBlock, h, jsNumStr]
    simp only [String.data_append, List.append_assoc]
    iterate 14 apply charsSkip
    apply charsOfPref
    apply prefThrough
    decide

theorem validCount_eq_claim (slots : List TrackSlot) :
    validCount slots = claimValidCount slots := by
  unfold validCount claimValidCount
  congr 1
  apply List.filter_congr
  intro s _
  cases s <;> rfl

theorem getTracksHandler_some_text (ids : List String) (slots : List TrackSlot)
    (h1 : ids ≠ []) (h2 : slots ≠ []) :
    firstText (getTracksHandler ids (BatchRemote.returns (some slots))) =
      "# Track Metadata (" ++
        (toString (validCount slots) ++ " of " ++ toString ids.length ++ " tracks)\n") ++
        jsJoin "\n" (renderedBlocks ids slots) := by
  unfold getTracksHandler
  rw [if_neg (by simpa [List.length_eq_zero] using h1)]
  dsimp only
  rw [if_neg (by simpa [List.length_eq_zero] using h2)]
  rfl

/-- C7: for every non-empty batch input whose remote call returns a non-empty
result array, the response text begins with the header
`# Track Metadata (<validCount> of <total> tracks)`, where validCount is the
number of non-null slots of the result array and total is the length of the
input identifier list. -/
theorem C7_header_counts (ids : List String) (slots : List TrackSlot)
    (hids : ids ≠ []) (hslots : slots ≠ []) :
    (claimHeader ids slots).data <+:
      (firstText (getTracksHandler ids (BatchRemote.returns (some slots)))).data := by
  rw [getTracksHandler_some_text ids slots hids hslots, validCount_eq_claim]
  unfold claimHeader
  simp only [String.data_append, List.append_assoc]
  apply prefCongr
  apply prefCongr
  apply prefCongr
  apply prefCongr
  exact prefStop _ (by decide)

theorem C7_header_counts_witness :
    ((["a"] : List String) ≠ []) ∧ (([TrackSlot.nullSlot] : List TrackSlot) ≠ []) ∧
    (claimHeader ["a"] [TrackSlot.nullSlot]).data <+:
      (firstText (getTracksHandler ["a"] (BatchRemote.returns (some [TrackSlot.nullSlot])))).data :=
  ⟨by decide, by decide,
   C7_header_counts ["a"] [TrackSlot.nullSlot] (by decide) (by decide)⟩

theorem getD_mem_of_lt {α : Type} {l : List α} {i : Nat} (d : α) (h : i < l.length) :
    l.getD i d ∈ l := by
  rw [List.getD_eq_getElem?_getD, List.getElem?_eq_getElem h]
  exact List.getElem_mem h

theorem renderTrackBlock_found_eq (ids : List String) (i : Nat) (t : SpotifyTrackMetadata) :
    renderTrackBlock ids i (TrackSlot.found t) = claimFoundBlock i t := by
  refine String.ext ?_
  simp [renderTrackBlock, claimFoundBlock, jsJoin, String.data_append,
    List.append_assoc, List.cons_append]

theorem get?_eq_getD_of_lt {l : List String} {i : Nat} (h : i < l.length) :
    l.get? i = some (l.getD i "") := by
  simp [List.get?_eq_getElem?, List.getElem?_eq_getElem h, List.getD_eq_getElem?_getD]

theorem renderTrackBlock_null_eq (ids : List String) (i : Nat) (hi : i < ids.length) :
    renderTrackBlock ids i TrackSlot.nullSlot = claimInvalidLine ids i := by
  unfold renderTrackBlock claimInvalidLine jsIndex
  rw [get?_eq_getD_of_lt hi]

theorem renderTrackBlock_undef_eq (ids : List String) (i : Nat) (hi : i < ids.length) :
    renderTrackBlock ids i TrackSlot.undefSlot = claimInvalidLine ids i := by
  unfold renderTrackBlock claimInvalidLine jsIndex
  rw [get?_eq_getD_of_lt hi]

/-- C1: for every batch input of 1..50 ids and a same-length remote result of
records-or-null, the response is the header followed by exactly one block per
slot, joined in strict input order with no reordering or omission: block `i`
is the numbered `## i+1.` found block carrying record `i`'s fields and id
when slot `i` is a record, and the line `[Invalid ID]: <ids[i]> - Track not
found` when slot `i` is null. -/
theorem C1_positional_blocks (ids : List String) (slots : List TrackSlot)
    (hne : 1 ≤ ids.length) (h50 : ids.length ≤ 50)
    (hlen : slots.length = ids.length)
    (hnu : ∀ s ∈ slots, s ≠ TrackSlot.undefSlot) :
    ∃ blocks : List String,
      firstText (getTracksHandler ids (BatchRemote.returns (some slots))) =
        claimHeader ids slots ++ "\n" ++ jsJoin "\n" blocks ∧
      blocks.length = ids.length ∧
      ∀ i, i < ids.length →
        blocks.getD i "" =
          match slots.getD i TrackSlot.nullSlot with
          | TrackSlot.found t => claimFoundBlock i t
          | _ => claimInvalidLine ids i := by
  have hids : ids ≠ [] := by
    intro h; rw [h] at hne; simp at hne
  have hslots : slots ≠ [] := by
    intro h
    rw [h] at hlen
    simp at hlen
    omega
  refine ⟨renderedBlocks ids slots, ?_, ?_, ?_⟩
  · rw [getTracksHandler_some_text ids slots hids hslots, validCount_eq_claim]
    refine String.ext ?_
    simp [claimHeader, String.data_append, List.append_assoc, List.cons_append]
  · rw [renderedBlocks_eq_aux, renderBlocksAux_length]
    exact hlen
  · intro i hi
    have hilt : i < slots.length := by omega
    rw [renderedBlocks_eq_aux, renderBlocksAux_getD ids slots 0 i hilt]
    simp only [Nat.zero_add]
    cases hslot : slots.getD i TrackSlot.nullSlot with
    | found t => exact renderTrackBlock_found_eq ids i t
    | nullSlot => exact renderTrackBlock_null_eq ids i hi
    | undefSlot =>
        exact absurd hslot (by
          intro hc
          exact hnu _ (hc ▸ getD_mem_of_lt TrackSlot.nullSlot hilt) rfl)

/-- A concrete track record used by the witness instantiations. -/
def sampleTrack : SpotifyTrackMetadata :=
  SpotifyTrackMetadata.mk "a" "Song" [SpotifyArtist.mk "ar" "Artist"]
    (SpotifyAlbum.mk "al" "Album" []) 225000 false (some 50) none none
    "https://open.spotify.com/track/a"

/-- A concrete track record with an absent popularity field, used by the
witness instantiations. -/
def sampleNoPopTrack : SpotifyTrackMetadata :=
  SpotifyTrackMetadata.mk "b" "Tune" [SpotifyArtist.mk "ar2" "Band"]
    (SpotifyAlbum.mk "al2" "LP" []) 61000 true none none none
    "https://open.spotify.com/track/b"

theorem C1_positional_blocks_witness :
    (1 ≤ (["a", "b"] : List String).length) ∧ ((["a", "b"] : List String).length ≤ 50) ∧
    (([TrackSlot.found sampleTrack, TrackSlot.nullSlot] : List TrackSlot).length =
      (["a", "b"] : List String).length) ∧
    (∀ s ∈ ([TrackSlot.found sampleTrack, TrackSlot.nullSlot] : List TrackSlot),
      s ≠ TrackSlot.undefSlot) ∧
    (∃ blocks : List String,
      firstText (getTracksHandler ["a", "b"]
          (BatchRemote.returns (some [TrackSlot.found sampleTrack, TrackSlot.nullSlot]))) =
        claimHeader ["a", "b"] [TrackSlot.found sampleTrack, TrackSlot.nullSlot] ++ "\n" ++
          jsJoin "\n" blocks ∧
      blocks.length = (["a", "b"] : List String).length ∧
      ∀ i, i < (["a", "b"] : List String).length →
        blocks.getD i "" =
          match ([TrackSlot.found sampleTrack, TrackSlot.nullSlot] :
              List TrackSlot).getD i TrackSlot.nullSlot with
          | TrackSlot.found t => claimFoundBlock i t
          | _ => claimInvalidLine ["a", "b"] i) :=
  ⟨by decide, by decide, by decide, by decide,
   C1_positional_blocks ["a", "b"] [TrackSlot.found sampleTrack, TrackSlot.nullSlot]
     (by decide) (by decide) (by decide) (by decide)⟩

theorem C10_popularity_default_divergence_witness :
    sampleNoPopTrack.popularity = none ∧
    (Substr "**Popularity**: 0/100"
      (firstText (getTrackHandler "b" (SingleRemote.returns (some sampleNoPopTrack)))) ∧
     Substr "**Popularity**: undefined/100"
       (renderTrackBlock ["b"] 0 (TrackSlot.found sampleNoPopTrack))) :=
  ⟨rfl, C10_popularity_default_divergence "b" ["b"] 0 sampleNoPopTrack rfl⟩

/-- A slot rendered as a found block (not the invalid-ID line). -/
def TrackSlot.isFound : TrackSlot → Bool
  | TrackSlot.found _ => true
  | _ => false

/-- Claim-side: the number of `##`-numbered found blocks among a list of
rendered blocks — blocks beginning with the `\n## ` marker. -/
def foundBlockCount (blocks : List String) : Nat :=
  (blocks.filter (fun b => "\n## ".data.isPrefixOf b.data)).length

theorem foundMarker_found (ids : List String) (i : Nat) (t : SpotifyTrackMetadata) :
    ("\n## ".data.isPrefixOf (renderTrackBlock ids i (TrackSlot.found t)).data) = true := by
  rw [ List.isPrefixOf_iff_prefix]
  simp only [renderTrackBlock, String.data_append]
  exact List.prefix_append _ _

theorem foundMarker_null (ids : List String) (i : Nat) :
    ("\n## ".data.isPrefixOf (renderTrackBlock ids i TrackSlot.nullSlot).data) = false := by
  rw [Bool.eq_false_iff]
  intro hb
  have h := List.isPrefixOf_iff_prefix.mp hb
  revert h
  simp only [renderTrackBlock, String.data_append]
  apply notPrefixOfCharNe 1 (by decide)
  rw [getAppendLeft (by decide)]
  decide

theorem foundMarker_undef (ids : List String) (i : Nat) :
    ("\n## ".data.isPrefixOf (renderTrackBlock ids i TrackSlot.undefSlot).data) = false := by
  rw [Bool.eq_false_iff]
  intro hb
  have h := List.isPrefixOf_iff_prefix.mp hb
  revert h
  simp only [renderTrackBlock, String.data_append]
  apply notPrefixOfCharNe 1 (by decide)
  rw [getAppendLeft (by decide)]
  decide

theorem markerChars : ("\n## " : String).data = ['\n', '#', '#', ' '] := rfl

theorem foundMarker_found' (ids : List String) (i : Nat) (t : SpotifyTrackMetadata) :
    ((['\n', '#', '#', ' '] : List Char).isPrefixOf
      (renderTrackBlock ids i (TrackSlot.found t)).data) = true := by
  have h := foundMarker_found ids i t
  rwa [markerChars] at h

theorem foundMarker_null' (ids : List String) (i : Nat) :
    ((['\n', '#', '#', ' '] : List Char).isPrefixOf
      (renderTrackBlock ids i TrackSlot.nullSlot).data) = false := by
  have h := foundMarker_null ids i
  rwa [markerChars] at h

theorem foundMarker_undef' (ids : List String) (i : Nat) :
    ((['\n', '#', '#', ' '] : List Char).isPrefixOf
      (renderTrackBlock ids i TrackSlot.undefSlot).data) = false := by
  have h := foundMarker_undef ids i
  rwa [markerChars] at h

theorem foundBlockCount_aux (ids : List String) :
    ∀ (ts : List TrackSlot) (i : Nat),
      foundBlockCount (renderBlocksAux ids i ts) =
        (ts.filter TrackSlot.isFound).length := by
  intro ts
  induction ts with
  | nil => intro i; rfl
  | cons s rest ih =>
      intro i
      cases s with
      | found t =>
          simp only [renderBlocksAux, foundBlockCount, List.filter_cons,
            foundMarker_found' ids i t, TrackSlot.isFound, if_true, List.length_cons]
          exact congrArg Nat.succ (ih (i + 1))
      | nullSlot =>
          simp only [renderBlocksAux, foundBlockCount, List.filter_cons,
            foundMarker_null' ids i, TrackSlot.isFound, if_false, Bool.false_eq_true]
          exact ih (i + 1)
      | undefSlot =>
          simp only [renderBlocksAux, foundBlockCount, List.filter_cons,
            foundMarker_undef' ids i, TrackSlot.isFound, if_false, Bool.false_eq_true]
          exact ih (i + 1)

theorem foundBlockCount_rendered (ids : List String) (ts : List TrackSlot) :
    foundBlockCount (renderedBlocks ids ts) = (ts.filter TrackSlot.isFound).length := by
  rw [renderedBlocks_eq_aux]
  exact foundBlockCount_aux ids ts 0

theorem filter_found_le_neNull :
    ∀ ts : List TrackSlot,
      (ts.filter TrackSlot.isFound).length ≤ (ts.filter (fun t => t.neNull)).length := by
  intro ts
  induction ts with
  | nil => exact Nat.le_refl 0
  | cons s rest ih =>
      cases s with
      | found t => simpa [List.filter_cons, TrackSlot.isFound, TrackSlot.neNull] using ih
      | nullSlot => simpa [List.filter_cons, TrackSlot.isFound, TrackSlot.neNull] using ih
      | undefSlot =>
          simp only [List.filter_cons, TrackSlot.isFound, TrackSlot.neNull,
            if_false, if_true, List.length_cons, Bool.false_eq_true]
          exact Nat.le_succ_of_le ih

theorem filter_found_lt_of_undef :
    ∀ ts : List TrackSlot, TrackSlot.undefSlot ∈ ts →
      (ts.filter TrackSlot.isFound).length < (ts.filter (fun t => t.neNull)).length := by
  intro ts
  induction ts with
  | nil => intro h; simp at h
  | cons s rest ih =>
      intro h
      cases s with
      | found t =>
          have hmem : TrackSlot.undefSlot ∈ rest := by
            rcases List.mem_cons.mp h with h1 | h1
            · exact absurd h1.symm (by simp)
            · exact h1
          simpa [List.filter_cons, TrackSlot.isFound, TrackSlot.neNull] using ih hmem
      | nullSlot =>
          have hmem : TrackSlot.undefSlot ∈ rest := by
            rcases List.mem_cons.mp h with h1 | h1
            · exact absurd h1.symm (by simp)
            · exact h1
          simpa [List.filter_cons, TrackSlot.isFound, TrackSlot.neNull] using ih hmem
      | undefSlot =>
          simp only [List.filter_cons, TrackSlot.isFound, TrackSlot.neNull,
            if_false, if_true, List.length_cons, Bool.false_eq_true]
          exact Nat.lt_succ_of_le (filter_found_le_neNull rest)

theorem filter_found_eq_of_no_undef :
    ∀ ts : List TrackSlot, (∀ s ∈ ts, s ≠ TrackSlot.undefSlot) →
      (ts.filter (fun t => t.neNull)).length = (ts.filter TrackSlot.isFound).length := by
  intro ts
  induction ts with
  | nil => intro h; rfl
  | cons s rest ih =>
      intro h
      have hrest : ∀ s ∈ rest, s ≠ TrackSlot.undefSlot :=
        fun x hx => h x (List.mem_cons_of_mem s hx)
      cases s with
      | found t => simpa [List.filter_cons, TrackSlot.isFound, TrackSlot.neNull] using ih hrest
      | nullSlot => simpa [List.filter_cons, TrackSlot.isFound, TrackSlot.neNull] using ih hrest
      | undefSlot => exact absurd rfl (h TrackSlot.undefSlot (List.mem_cons_self _ _))

/-- C9: a slot is rendered as absent whenever it is falsy (`!track`) but is
counted toward validCount whenever it is not strictly null (`t !== null`);
hence whenever the result array's absent slots are all exactly null, the
header's validCount equals the number of `##`-numbered found blocks among the
rendered blocks, while a result array containing a non-null falsy slot
(undefined) breaks this equality. -/
theorem C9_validCount_vs_found_blocks (ids1 ids2 : List String)
    (slots1 slots2 : List TrackSlot)
    (h1 : ∀ s ∈ slots1, s ≠ TrackSlot.undefSlot)
    (h2 : TrackSlot.undefSlot ∈ slots2) :
    validCount slots1 = foundBlockCount (renderedBlocks ids1 slots1) ∧
    validCount slots2 ≠ foundBlockCount (renderedBlocks ids2 slots2) := by
  constructor
  · rw [foundBlockCount_rendered]
    unfold validCount
    exact filter_found_eq_of_no_undef slots1 h1
  · rw [foundBlockCount_rendered]
    unfold validCount
    have := filter_found_lt_of_undef slots2 h2
    omega

theorem C9_validCount_vs_found_blocks_witness :
    (∀ s ∈ ([TrackSlot.found sampleTrack, TrackSlot.nullSlot] : List TrackSlot),
      s ≠ TrackSlot.undefSlot) ∧
    (TrackSlot.undefSlot ∈ ([TrackSlot.undefSlot] : List TrackSlot)) ∧
    (validCount [TrackSlot.found sampleTrack, TrackSlot.nullSlot] =
      foundBlockCount (renderedBlocks ["a", "b"] [TrackSlot.found sampleTrack, TrackSlot.nullSlot]) ∧
     validCount [TrackSlot.undefSlot] ≠
      foundBlockCount (renderedBlocks ["c"] [TrackSlot.undefSlot])) :=
  ⟨by decide, by decide,
   C9_validCount_vs_found_blocks ["a", "b"] ["c"]
     [TrackSlot.found sampleTrack, TrackSlot.nullSlot] [TrackSlot.undefSlot]
     (by decide) (by decide)⟩

/-- A slot echoes an input identifier when, if it carries a record, that
record's id is the identifier. -/
def TrackSlot.echoesId (s : TrackSlot) (id : String) : Bool :=
  match s with
  | TrackSlot.found t => t.id == id
  | _ => true

theorem charsSkipCons (c : Char) {p m : List Char} (h : p <:+: m) : p <:+: c :: m := by
  obtain ⟨s, t, rfl⟩ := h
  exact ⟨c :: s, t, by simp⟩

theorem prefConsCons (c : Char) {p q : List Char} (h : p <+: q) : c :: p <+: c :: q := by
  obtain ⟨t, rfl⟩ := h
  exact ⟨t, rfl⟩

theorem renderedBlocks_length (ids : List String) (ts : List TrackSlot) :
    (renderedBlocks ids ts).length = ts.length := by
  rw [renderedBlocks_eq_aux, renderBlocksAux_length]

theorem substr_jsJoin (sep : String) :
    ∀ (blocks : List String) (b : String), b ∈ blocks →
      ∀ p, Substr p b → Substr p (jsJoin sep blocks) := by
  intro blocks
  induction blocks with
  | nil => intro b hb; simp at hb
  | cons a rest ih =>
      intro b hb p hp
      rcases List.mem_cons.mp hb with h1 | h1
      · subst h1
        cases rest with
        | nil => exact hp
        | cons c cs =>
            show Substr p ((b ++ sep) ++ jsJoin sep (c :: cs))
            exact substrAppendLeft _ (substrAppendLeft sep hp)
      · cases rest with
        | nil => simp at h1
        | cons c cs =>
            show Substr p ((a ++ sep) ++ jsJoin sep (c :: cs))
            exact substrAppendRight _ (ih b h1 p hp)

theorem claimFoundBlock_char1 (i : Nat) (t : SpotifyTrackMetadata) :
    (claimFoundBlock i t).data[1]? = some '#' := by
  simp only [claimFoundBlock, String.data_append]
  rw [getAppendLeft (by decide)]
  decide

theorem claimInvalidLine_char1 (ids : List String) (i : Nat) :
    (claimInvalidLine ids i).data[1]? = some '[' := by
  simp only [claimInvalidLine, String.data_append]
  rw [getAppendLeft (by decide)]
  decide

theorem claimFoundBlock_ne_invalid (i j : Nat) (t : SpotifyTrackMetadata)
    (ids : List String) : claimFoundBlock i t ≠ claimInvalidLine ids j := by
  apply stringNeOfChar 1
  rw [claimFoundBlock_char1, claimInvalidLine_char1]
  decide

theorem id_in_claimFoundBlock (i : Nat) (t : SpotifyTrackMetadata) :
    Substr t.id (claimFoundBlock i t) := by
  unfold claimFoundBlock
  apply substrAppendRight
  apply substrAppendRight
  simp only [jsJoin]
  iterate 4 apply substrAppendRight
  apply substrAppendRight
  exact substrRefl t.id

theorem marker_in_claimFoundBlock (i : Nat) (t : SpotifyTrackMetadata) :
    Substr ("## " ++ toString (i + 1) ++ ".") (claimFoundBlock i t) := by
  unfold Substr claimFoundBlock
  simp only [String.data_append, List.append_assoc, List.cons_append, List.nil_append]
  apply charsSkipCons
  apply charsOfPref
  iterate 3 apply prefConsCons
  apply prefCongr
  exact ⟨_, rfl⟩

theorem id_in_claimInvalidLine (ids : List String) (i : Nat) :
    Substr (ids.getD i "") (claimInvalidLine ids i) := by
  unfold claimInvalidLine
  apply substrAppendRight
  exact substrAppendLeft _ (substrRefl _)

theorem invalidMarker_in_line (ids : List String) (i : Nat) :
    Substr ("[Invalid ID]: " ++ ids.getD i "") (claimInvalidLine ids i) := by
  unfold Substr claimInvalidLine
  simp only [String.data_append, List.append_assoc, List.cons_append, List.nil_append]
  apply charsSkipCons
  apply charsOfPref
  iterate 14 apply prefConsCons
  exact List.prefix_append _ _

/-- C2: for every batch input mixing resolvable and unresolvable identifiers
(each result slot either a record echoing its input id or null, same length),
every input identifier appears in the response text, and the block answering
for slot `i` carries exactly one of the two markers — the numbered `## i+1.`
found marker when the slot is a record, or the `[Invalid ID]: <id>` marker
when the slot is null — never both and never neither. -/
theorem C2_each_id_exactly_one_marker (ids : List String) (slots : List TrackSlot)
    (hne : 1 ≤ ids.length) (h50 : ids.length ≤ 50)
    (hlen : slots.length = ids.length)
    (hecho : ∀ i, i < slots.length →
      ((slots.getD i TrackSlot.nullSlot).echoesId (ids.getD i "")) = true)
    (hnu : ∀ s ∈ slots, s ≠ TrackSlot.undefSlot)
    (hmixf : ∃ s ∈ slots, s.isFound = true)
    (hmixn : TrackSlot.nullSlot ∈ slots) :
    ∀ i, i < ids.length →
      Substr (ids.getD i "")
        (firstText (getTracksHandler ids (BatchRemote.returns (some slots)))) ∧
      ((∃ t, slots.getD i TrackSlot.nullSlot = TrackSlot.found t ∧
          (renderedBlocks ids slots).getD i "" = claimFoundBlock i t ∧
          Substr ("## " ++ toString (i + 1) ++ ".") ((renderedBlocks ids slots).getD i "") ∧
          Substr (ids.getD i "") ((renderedBlocks ids slots).getD i "") ∧
          (renderedBlocks ids slots).getD i "" ≠ claimInvalidLine ids i) ∨
       (slots.getD i TrackSlot.nullSlot = TrackSlot.nullSlot ∧
          (renderedBlocks ids slots).getD i "" = claimInvalidLine ids i ∧
          Substr ("[Invalid ID]: " ++ ids.getD i "") ((renderedBlocks ids slots).getD i "") ∧
          Substr (ids.getD i "") ((renderedBlocks ids slots).getD i "") ∧
          ∀ t, (renderedBlocks ids slots).getD i "" ≠ claimFoundBlock i t)) := by
  intro i hi
  have hilt : i < slots.length := by omega
  have hblock : (renderedBlocks ids slots).getD i "" =
      renderTrackBlock ids i (slots.getD i TrackSlot.nullSlot) := by
    rw [renderedBlocks_eq_aux, renderBlocksAux_getD ids slots 0 i hilt, Nat.zero_add]
  have hmem : (renderedBlocks ids slots).getD i "" ∈ renderedBlocks ids slots := by
    apply getD_mem_of_lt
    rw [renderedBlocks_length]
    exact hilt
  have hids : ids ≠ [] := by
    intro h; rw [h] at hne; simp at hne
  have hslots : slots ≠ [] := by
    intro h; rw [h] at hlen; simp at hlen; omega
  cases hslot : slots.getD i TrackSlot.nullSlot with
  | found t =>
      have htid : t.id = ids.getD i "" := by
        have h := hecho i hilt
        rw [hslot] at h
        unfold TrackSlot.echoesId at h
        exact eq_of_beq h
      rw [hslot] at hblock
      rw [renderTrackBlock_found_eq] at hblock
      have hsubid : Substr (ids.getD i "") ((renderedBlocks ids slots).getD i "") := by
        rw [hblock, ← htid]
        exact id_in_claimFoundBlock i t
      constructor
      · rw [getTracksHandler_some_text ids slots hids hslots]
        apply substrAppendRight
        exact substr_jsJoin "\n" (renderedBlocks ids slots) _ hmem _ hsubid
      · refine Or.inl ⟨t, rfl, hblock, ?_, hsubid, ?_⟩
        · rw [hblock]
          exact marker_in_claimFoundBlock i t
        · rw [hblock]
          exact claimFoundBlock_ne_invalid i i t ids
  | nullSlot =>
      rw [hslot] at hblock
      rw [renderTrackBlock_null_eq ids i hi] at hblock
      have hsubid : Substr (ids.getD i "") ((renderedBlocks ids slots).getD i "") := by
        rw [hblock]
        exact id_in_claimInvalidLine ids i
      constructor
      · rw [getTracksHandler_some_text ids slots hids hslots]
        apply substrAppendRight
        exact substr_jsJoin "\n" (renderedBlocks ids slots) _ hmem _ hsubid
      · refine Or.inr ⟨rfl, hblock, ?_, hsubid, ?_⟩
        · rw [hblock]
          exact invalidMarker_in_line ids i
        · intro t
          rw [hblock]
          exact Ne.symm (claimFoundBlock_ne_invalid i i t ids)
  | undefSlot =>
      have hmem2 : TrackSlot.undefSlot ∈ slots :=
        hslot ▸ getD_mem_of_lt TrackSlot.nullSlot hilt
      exact absurd rfl (hnu TrackSlot.undefSlot hmem2)

theorem C2_each_id_exactly_one_marker_witness :
    (1 ≤ (["a", "x"] : List String).length) ∧
    ((["a", "x"] : List String).length ≤ 50) ∧
    (([TrackSlot.found sampleTrack, TrackSlot.nullSlot] : List TrackSlot).length =
      (["a", "x"] : List String).length) ∧
    (∀ i, i < ([TrackSlot.found sampleTrack, TrackSlot.nullSlot] : List TrackSlot).length →
      ((([TrackSlot.found sampleTrack, TrackSlot.nullSlot] : List TrackSlot).getD i
          TrackSlot.nullSlot).echoesId ((["a", "x"] : List String).getD i "")) = true) ∧
    (∀ s ∈ ([TrackSlot.found sampleTrack, TrackSlot.nullSlot] : List TrackSlot),
      s ≠ TrackSlot.undefSlot) ∧
    (∃ s ∈ ([TrackSlot.found sampleTrack, TrackSlot.nullSlot] : List TrackSlot),
      s.isFound = true) ∧
    (TrackSlot.nullSlot ∈ ([TrackSlot.found sampleTrack, TrackSlot.nullSlot] : List TrackSlot)) ∧
    (∀ i, i < (["a", "x"] : List String).length →
      Substr ((["a", "x"] : List String).getD i "")
        (firstText (getTracksHandler ["a", "x"]
          (BatchRemote.returns (some [TrackSlot.found sampleTrack, TrackSlot.nullSlot])))) ∧
      ((∃ t, ([TrackSlot.found sampleTrack, TrackSlot.nullSlot] : List TrackSlot).getD i
            TrackSlot.nullSlot = TrackSlot.found t ∧
          (renderedBlocks ["a", "x"] [TrackSlot.found sampleTrack, TrackSlot.nullSlot]).getD i "" =
            claimFoundBlock i t ∧
          Substr ("## " ++ toString (i + 1) ++ ".")
            ((renderedBlocks ["a", "x"] [TrackSlot.found sampleTrack, TrackSlot.nullSlot]).getD i "") ∧
          Substr ((["a", "x"] : List String).getD i "")
            ((renderedBlocks ["a", "x"] [TrackSlot.found sampleTrack, TrackSlot.nullSlot]).getD i "") ∧
          (renderedBlocks ["a", "x"] [TrackSlot.found sampleTrack, TrackSlot.nullSlot]).getD i "" ≠
            claimInvalidLine ["a", "x"] i) ∨
       (([TrackSlot.found sampleTrack, TrackSlot.nullSlot] : List TrackSlot).getD i
            TrackSlot.nullSlot = TrackSlot.nullSlot ∧
          (renderedBlocks ["a", "x"] [TrackSlot.found sampleTrack, TrackSlot.nullSlot]).getD i "" =
            claimInvalidLine ["a", "x"] i ∧
          Substr ("[Invalid ID]: " ++ (["a", "x"] : List String).getD i "")
            ((renderedBlocks ["a", "x"] [TrackSlot.found sampleTrack, TrackSlot.nullSlot]).getD i "") ∧
          Substr ((["a", "x"] : List String).getD i "")
            ((renderedBlocks ["a", "x"] [TrackSlot.found sampleTrack, TrackSlot.nullSlot]).getD i "") ∧
          ∀ t, (renderedBlocks ["a", "x"] [TrackSlot.found sampleTrack,
            TrackSlot.nullSlot]).getD i "" ≠ claimFoundBlock i t))) :=
  ⟨by decide, by decide, by decide, by decide, by decide, by decide, by decide,
   C2_each_id_exactly_one_marker ["a", "x"] [TrackSlot.found sampleTrack, TrackSlot.nullSlot]
     (by decide) (by decide) (by decide) (by decide) (by decide) (by decide) (by decide)⟩
